import Mathlib

/-
  Verification development for the fire-data pipeline in
  BlueRaster_Interview_Conda3_9/main.py.

  The pipeline is embedded shallowly: pandas / geopandas dataframes become
  lists of rows, a row being an association list from column names to values;
  the network, the CSV parser and the GeoJSON parser are treated as the
  producers of the input lists, and the HTTP status of the boundary request
  is an explicit input.  The external geometry predicate (shapely) and the
  external portal API (arcgis) are modelled by executable Lean functions
  whose doc comments state exactly which documented library behaviour they
  capture.
-/

namespace FirePipeline

/-- A 2D point with integer coordinates; the model of a shapely `Point(x, y)`
constructed as `Point(longitude, latitude)`, so `x` is the longitude and `y`
is the latitude. -/
structure Point where
  x : Int
  y : Int
deriving DecidableEq

/-- A closed half-plane `a*x + b*y ≤ c` with integer coefficients. -/
structure HalfPlane where
  a : Int
  b : Int
  c : Int
deriving DecidableEq

/-- A convex polygon, modelled as the intersection of finitely many closed
half-planes.  This stands for the shapely polygon geometries carried by the
country boundary rows. -/
structure Polygon where
  halfplanes : List HalfPlane
deriving DecidableEq

/-- Model of the shapely predicate used by `gpd.sjoin(..., predicate="within")`
for a point against a polygon: the point lies in the interior of the polygon,
so every defining inequality is strict.  A point on the boundary edge is not
`within` the polygon. -/
def pointWithin (p : Point) (g : Polygon) : Bool :=
  g.halfplanes.all (fun h => h.a * p.x + h.b * p.y < h.c)

/-- Model of the shapely `intersects` predicate for a point against a polygon:
closed containment, the boundary included.  Used to state that a point lies on
a boundary edge (`pointIntersects` and not `pointWithin`). -/
def pointIntersects (p : Point) (g : Polygon) : Bool :=
  g.halfplanes.all (fun h => h.a * p.x + h.b * p.y ≤ h.c)

/-- A cell value of a dataframe column: numbers, strings, point geometries and
polygon geometries are the kinds the pipeline touches. -/
inductive Value where
  | int : Int → Value
  | str : String → Value
  | pt : Point → Value
  | poly : Polygon → Value
deriving DecidableEq

/-- A dataframe row: an association list from column names to cell values. -/
abbrev Row := List (String × Value)

/-- Column lookup, the model of `row["name"]` / frame column access: the first
entry with the given name. -/
def getCol : Row → String → Option Value
  | [], _ => none
  | c :: cs, n => if c.1 == n then some c.2 else getCol cs n

/-- Column assignment, the model of `df["name"] = value` for one row: if the
column exists every entry of that name is replaced in place, otherwise the new
column is appended at the end. -/
def setCol (r : Row) (n : String) (v : Value) : Row :=
  if r.any (fun c => c.1 == n) then
    r.map (fun c => if c.1 == n then (n, v) else c)
  else
    r ++ [(n, v)]

/-- Column removal for one row, the model of `df.drop(columns=["name"])`. -/
def dropColumn (n : String) (r : Row) : Row :=
  r.filter (fun c => c.1 != n)

/-- `COUNTRIES_TO_KEEP` from main.py. -/
def COUNTRIES_TO_KEEP : List String := ["Brazil", "Peru", "Bolivia"]

/-- `ITEM_TITLE` from main.py. -/
def ITEM_TITLE : String := "Filtered Fire Data - Brazil, Peru, Bolivia"

/-- The errors the embedded pipeline can raise: `schemaError` models the
KeyError raised when a fire row lacks the latitude or longitude column, and
`fetchError` models the `requests.exceptions.HTTPError` raised by
`response.raise_for_status()` on a non-success HTTP status (the spec calls
this error kind `FetchError`). -/
inductive PipelineError where
  | schemaError : PipelineError
  | fetchError : Nat → PipelineError
deriving DecidableEq

/-- The body of the lambda in `fetch_fire_data`: build
`Point(row["longitude"], row["latitude"])` and store it in the `geometry`
column; `none` when a coordinate column is missing or non-numeric. -/
def attachGeometry (r : Row) : Option Row :=
  match getCol r "latitude", getCol r "longitude" with
  | some (Value.int lat), some (Value.int lon) =>
      some (setCol r "geometry" (Value.pt ⟨lon, lat⟩))
  | _, _ => none

/-- `fire_df.apply(...)` over all rows: every row must yield a geometry. -/
def attachAll : List Row → Option (List Row)
  | [] => some []
  | r :: rs =>
    match attachGeometry r, attachAll rs with
    | some r2, some rs2 => some (r2 :: rs2)
    | _, _ => none

/-- `fetch_fire_data` from main.py, applied to the rows parsed from the CSV:
attaches one point geometry per row from that row's own longitude/latitude
pair, failing when a row lacks the coordinates. -/
def fetch_fire_data (rows : List Row) : Except PipelineError (List Row) :=
  match attachAll rows with
  | some out => Except.ok out
  | none => Except.error PipelineError.schemaError

/-- The filter predicate of `world_gdf["COUNTRY"].isin(COUNTRIES_TO_KEEP)` on
one row: the `COUNTRY` cell is a string contained in the allow-list (a missing
or non-string cell is not in the list). -/
def keepCountry (r : Row) : Bool :=
  match getCol r "COUNTRY" with
  | some (Value.str n) => COUNTRIES_TO_KEEP.contains n
  | _ => false

/-- `fetch_country_boundaries` from main.py, applied to the HTTP status of the
boundary request and the rows parsed from the GeoJSON body:
`response.raise_for_status()` raises on any status in 400..599, otherwise the
rows are filtered to the allow-listed countries. -/
def fetch_country_boundaries (status : Nat) (world : List Row) :
    Except PipelineError (List Row) :=
  if 400 ≤ status ∧ status < 600 then
    Except.error (PipelineError.fetchError status)
  else
    Except.ok (world.filter keepCountry)

/-- The pairwise join predicate of `gpd.sjoin(fire_gdf, countries_gdf,
predicate="within")`: the left row's point geometry is within the right row's
polygon geometry. -/
def rowWithin (l c : Row) : Bool :=
  match getCol l "geometry", getCol c "geometry" with
  | some (Value.pt p), some (Value.poly g) => pointWithin p g
  | _, _ => false

/-- The right-side columns that `gpd.sjoin` appends to a matching left row:
all columns of the right row except its geometry column. -/
def countryAttributes (c : Row) : Row :=
  dropColumn "geometry" c

/-- One left row joined against the right rows, `j` being the index of the
first right row: for every matching right row, `sjoin` emits the left row,
an `index_right` bookkeeping column holding the right row's index, and the
right row's attribute columns. -/
def joinMatches (l : Row) : Nat → List Row → List Row
  | _, [] => []
  | j, c :: cs =>
    if rowWithin l c then
      (l ++ [("index_right", Value.int (Int.ofNat j))] ++ countryAttributes c)
        :: joinMatches l (j + 1) cs
    else
      joinMatches l (j + 1) cs

/-- `gpd.sjoin(left, right, how="inner", predicate="within")`: one output row
per matching (left, right) pair, left rows in order, the matches of each left
row in right order.  Column-name collisions between the two frames are not
modelled; the fire feed and the boundary feed share no attribute names. -/
def sjoin_within (left right : List Row) : List Row :=
  left.flatMap (fun l => joinMatches l 0 right)

/-- `filter_fire_data` from main.py: the inner within-join followed by
`.drop(columns=["index_right"])`. -/
def filter_fire_data (fire_gdf countries_gdf : List Row) : List Row :=
  (sjoin_within fire_gdf countries_gdf).map (dropColumn "index_right")

/-- The number of retained country polygons whose interior strictly contains
the point of a fire row. -/
def withinCount (ctrys : List Row) (l : Row) : Nat :=
  (ctrys.filter (fun c => rowWithin l c)).length

/-- An item hosted on the GIS portal: its identity (id, url, sharing
settings), its searchable title, its item type and its feature data. -/
structure PortalItem where
  id : Nat
  title : String
  itemType : String
  url : String
  sharing : String
  data : List Row
deriving DecidableEq

/-- The portal state: the hosted items and the id the next created item will
receive. -/
structure Portal where
  items : List PortalItem
  nextId : Nat
deriving DecidableEq

/-- Splits a list of characters at spaces, accumulating the current word
reversed; the tokenizer behind the full-text search model. -/
def splitWords : List Char → List Char → List (List Char)
  | [], acc => [acc.reverse]
  | ch :: cs, acc =>
    if ch = ' ' then acc.reverse :: splitWords cs []
    else splitWords cs (ch :: acc)

/-- The space-separated words of a string. -/
def wordsOf (s : String) : List (List Char) :=
  splitWords s.data []

/-- Modelled from the documented behaviour of the ArcGIS portal search used by
`gis.content.search(query)`: an unquoted query performs full-text term
matching, not exact title equality, so an item matches when every word of the
query occurs among the words of the item's title (the model restricts the
searchable fields to the title). -/
def queryMatches (query title : String) : Bool :=
  (wordsOf query).all (fun w => (wordsOf title).contains w)

/-- `gis.content.search(query, item_type=...)`: the items of the requested
type whose searchable text matches the query, in portal order. -/
def content_search (gis : Portal) (query itemType : String) : List PortalItem :=
  gis.items.filter (fun it => it.itemType == itemType && queryMatches query it.title)

/-- One observable portal mutation: overwriting the data of an existing item,
or creating a new item. -/
inductive PortalChange where
  | overwriteData : Nat → PortalChange
  | createLayer : Nat → PortalChange
deriving DecidableEq

/-- The outcome of the publish stage: the new portal state, the portal
mutations performed, and the progress lines printed. -/
structure PublishResult where
  portal : Portal
  changes : List PortalChange
  stdout : List String
deriving DecidableEq

/-- `publish_to_arcgis` from main.py: search the portal with `ITEM_TITLE` as
the query; if any feature-layer item is returned, take the first result and
overwrite its data in place (`FeatureLayerCollection.fromitem` followed by
`manager.overwrite`, which keeps the item's id, title, url and sharing
settings); otherwise create a new hosted feature layer titled `ITEM_TITLE`
(`sdf.spatial.to_featurelayer`). -/
def publish_to_arcgis (gis : Portal) (sdf : List Row) : PublishResult :=
  match content_search gis ITEM_TITLE "Feature Layer" with
  | item :: _ =>
    { portal := { gis with
        items := gis.items.map (fun it =>
          if it.id == item.id then { it with data := sdf } else it) },
      changes := [PortalChange.overwriteData item.id],
      stdout := ["Publishing to ArcGIS Online...", "Updating existing layer...",
                 "Publishing complete!"] }
  | [] =>
    let newItem : PortalItem :=
      { id := gis.nextId, title := ITEM_TITLE, itemType := "Feature Layer",
        url := "", sharing := "private", data := sdf }
    { portal := { items := gis.items ++ [newItem], nextId := gis.nextId + 1 },
      changes := [PortalChange.createLayer gis.nextId],
      stdout := ["Publishing to ArcGIS Online...", "Creating a new feature layer...",
                 "Publishing complete!"] }

/-- The exception message, as interpolated by `print(f"Error: {e}")`; the
text of the HTTP error approximates the message of
`requests.exceptions.HTTPError`. -/
def errMsg : PipelineError → String
  | PipelineError.schemaError => "KeyError"
  | PipelineError.fetchError status => Nat.repr status ++ " Error for url"

/-- The inputs of one run of the script: the parsed fire CSV rows, the HTTP
status and parsed rows of the boundary request, and the initial portal
state. -/
structure RunInput where
  fireRows : List Row
  boundaryStatus : Nat
  worldRows : List Row
  portal : Portal
deriving DecidableEq

/-- The observable outcome of one run: the lines printed to standard output
and to standard error, the process exit code, the final portal state and the
portal mutations performed. -/
structure RunResult where
  stdout : List String
  stderr : List String
  exitCode : Nat
  portal : Portal
  changes : List PortalChange
deriving DecidableEq

/-- The first stage error the run hits, if any. -/
def runError (inp : RunInput) : Option PipelineError :=
  match fetch_fire_data inp.fireRows with
  | Except.error e => some e
  | Except.ok _ =>
    match fetch_country_boundaries inp.boundaryStatus inp.worldRows with
    | Except.error e => some e
    | Except.ok _ => none

/-- The `__main__` block of main.py: the stages run in order inside a single
try block; any exception reaches the single top-level handler, which prints
`Error: {e}` with `print` (standard output) and falls off the end of the
script, so the process exits with code 0 in every case and nothing is
retried.  Progress lines are modelled at the run level in the order the
stages print them. -/
def runMain (inp : RunInput) : RunResult :=
  match fetch_fire_data inp.fireRows with
  | Except.error e =>
    { stdout := ["Fetching fire data...", "Error: " ++ errMsg e]
      stderr := [], exitCode := 0, portal := inp.portal, changes := [] }
  | Except.ok fire_gdf =>
    match fetch_country_boundaries inp.boundaryStatus inp.worldRows with
    | Except.error e =>
      { stdout := ["Fetching fire data...", "Fetching country boundaries...",
                   "Error: " ++ errMsg e]
        stderr := [], exitCode := 0, portal := inp.portal, changes := [] }
    | Except.ok countries_gdf =>
      let filtered_gdf := filter_fire_data fire_gdf countries_gdf
      let pub := publish_to_arcgis inp.portal filtered_gdf
      { stdout := ["Fetching fire data...", "Fetching country boundaries...",
                   "Filtering fire data...",
                   "Filtered " ++ Nat.repr filtered_gdf.length ++ " fire records."]
                  ++ pub.stdout ++ ["Process completed successfully!"]
        stderr := [], exitCode := 0, portal := pub.portal, changes := pub.changes }

/-! ### Concrete instances used to evaluate the definitions -/

/-- The axis-aligned rectangle with `x0 < x < x1` and `y0 < y < y1` as its
interior, as a half-plane polygon. -/
def sq (x0 x1 y0 y1 : Int) : Polygon :=
  ⟨[⟨-1, 0, -x0⟩, ⟨1, 0, x1⟩, ⟨0, -1, -y0⟩, ⟨0, 1, y1⟩]⟩

/-- A fire row as produced by the fire fetcher: coordinates plus the attached
point geometry `Point(longitude, latitude)`. -/
def mkFire (x y : Int) : Row :=
  [("latitude", Value.int y), ("longitude", Value.int x),
   ("geometry", Value.pt ⟨x, y⟩)]

/-- A country boundary row: the `COUNTRY` name and the polygon geometry. -/
def mkCountry (n : String) (g : Polygon) : Row :=
  [("COUNTRY", Value.str n), ("geometry", Value.poly g)]

/-! ### Lemmas about the row operations -/

theorem getCol_append_of_none {a : Row} (b : Row) {n : String}
    (h : getCol a n = none) : getCol (a ++ b) n = getCol b n := by
  induction a with
  | nil => rfl
  | cons c cs ih =>
    cases hc : (c.1 == n) with
    | true => simp [getCol, hc] at h
    | false =>
      simp only [getCol, hc] at h
      simp only [List.cons_append, getCol, hc, Bool.false_eq_true, if_false] at h ⊢
      exact ih h

theorem getCol_dropColumn_self (r : Row) (m : String) :
    getCol (dropColumn m r) m = none := by
  induction r with
  | nil => rfl
  | cons c cs ih =>
    cases hc : (c.1 == m) with
    | true =>
      have h0 : (c.1 != m) = false := by simp [bne, hc]
      simpa [dropColumn, List.filter_cons, h0] using ih
    | false =>
      have h1 : (c.1 != m) = true := by simp [bne, hc]
      simpa [dropColumn, List.filter_cons, h1, getCol, hc] using ih

theorem getCol_dropColumn_ne (r : Row) {n m : String} (h : n ≠ m) :
    getCol (dropColumn m r) n = getCol r n := by
  induction r with
  | nil => rfl
  | cons c cs ih =>
    cases hc : (c.1 == m) with
    | true =>
      have hcm : c.1 = m := by simpa using hc
      have hcn : (c.1 == n) = false := by
        simp [hcm]
        exact fun hmn => h hmn.symm
      have h0 : (c.1 != m) = false := by simp [bne, hc]
      simpa [dropColumn, List.filter_cons, h0, getCol, hcn] using ih
    | false =>
      have h1 : (c.1 != m) = true := by simp [bne, hc]
      cases hcn : (c.1 == n) with
      | true => simp [dropColumn, List.filter_cons, h1, getCol, hcn]
      | false => simpa [dropColumn, List.filter_cons, h1, getCol, hcn] using ih

theorem dropColumn_eq_self {r : Row} {m : String}
    (h : ∀ c ∈ r, (c.1 == m) = false) : dropColumn m r = r := by
  induction r with
  | nil => rfl
  | cons c cs ih =>
    have hc := h c (List.mem_cons_self c cs)
    have h1 : (c.1 != m) = true := by simp [bne, hc]
    simp only [dropColumn, List.filter_cons, h1, if_true]
    simp only [dropColumn] at ih
    rw [ih fun x hx => h x (List.mem_cons_of_mem c hx)]

theorem getCol_of_all_ne {r : Row} {n : String}
    (h : ∀ c ∈ r, (c.1 == n) = false) : getCol r n = none := by
  induction r with
  | nil => rfl
  | cons c cs ih =>
    have hc := h c (List.mem_cons_self c cs)
    simp only [getCol, hc, Bool.false_eq_true, if_false]
    exact ih fun x hx => h x (List.mem_cons_of_mem c hx)

theorem getCol_map_replace {cs : Row} {n : String} {v : Value}
    (h : cs.any (fun c => c.1 == n) = true) :
    getCol (cs.map (fun c => if c.1 == n then (n, v) else c)) n = some v := by
  induction cs with
  | nil => simp at h
  | cons c cs ih =>
    cases hc : (c.1 == n) with
    | true => simp [getCol, hc]
    | false =>
      simp only [List.any_cons, hc, Bool.false_or] at h
      simp only [List.map_cons, hc, Bool.false_eq_true, if_false, getCol]
      exact ih h

theorem getCol_setCol_self (r : Row) (n : String) (v : Value) :
    getCol (setCol r n v) n = some v := by
  unfold setCol
  by_cases h : r.any (fun c => c.1 == n) = true
  · rw [if_pos h]
    exact getCol_map_replace h
  · rw [if_neg h]
    have hall : ∀ c ∈ r, (c.1 == n) = false := by
      intro c hcr
      cases hcb : (c.1 == n) with
      | false => rfl
      | true => exact absurd (List.any_eq_true.mpr ⟨c, hcr, hcb⟩) h
    rw [getCol_append_of_none _ (getCol_of_all_ne hall)]
    simp [getCol]

/-! ### Lemmas about the spatial join -/

theorem joinMatches_length (l : Row) (cs : List Row) :
    ∀ j, (joinMatches l j cs).length = (cs.filter (fun c => rowWithin l c)).length := by
  induction cs with
  | nil => intro j; rfl
  | cons c cs ih =>
    intro j
    cases h : rowWithin l c with
    | true => simp [joinMatches, h, List.filter_cons, ih]
    | false => simp [joinMatches, h, List.filter_cons, ih]

theorem mem_joinMatches {l x : Row} {cs : List Row} :
    ∀ {j}, x ∈ joinMatches l j cs →
      ∃ c ∈ cs, rowWithin l c = true ∧
        ∃ k : Int, x = l ++ [("index_right", Value.int k)] ++ countryAttributes c := by
  induction cs with
  | nil => intro j h; simp [joinMatches] at h
  | cons c cs ih =>
    intro j h
    cases hc : rowWithin l c with
    | true =>
      rw [joinMatches, if_pos hc] at h
      rcases List.mem_cons.mp h with h | h
      · exact ⟨c, List.mem_cons_self c cs, hc, Int.ofNat j, h⟩
      · rcases ih h with ⟨c2, hc2, hw, k, hx⟩
        exact ⟨c2, List.mem_cons_of_mem c hc2, hw, k, hx⟩
    | false =>
      rw [joinMatches, if_neg (by simp [hc])] at h
      rcases ih h with ⟨c2, hc2, hw, k, hx⟩
      exact ⟨c2, List.mem_cons_of_mem c hc2, hw, k, hx⟩

theorem sjoin_within_length (fires ctrys : List Row) :
    (sjoin_within fires ctrys).length
      = (fires.map (fun l => withinCount ctrys l)).sum := by
  induction fires with
  | nil => rfl
  | cons l fires ih =>
    simp [sjoin_within, withinCount, joinMatches_length, List.flatMap_cons,
      List.length_append] at ih ⊢
    exact ih

theorem filter_fire_data_length (fires ctrys : List Row) :
    (filter_fire_data fires ctrys).length
      = (fires.map (fun l => withinCount ctrys l)).sum := by
  rw [filter_fire_data, List.length_map, sjoin_within_length]

theorem mem_filter_fire_data {fires ctrys : List Row} {r : Row}
    (hr : r ∈ filter_fire_data fires ctrys) :
    ∃ l ∈ fires, ∃ c ∈ ctrys, rowWithin l c = true ∧ ∃ k : Int,
      r = dropColumn "index_right"
            (l ++ [("index_right", Value.int k)] ++ countryAttributes c) := by
  rcases List.mem_map.mp hr with ⟨x, hx, hxr⟩
  rcases List.mem_flatMap.mp hx with ⟨l, hl, hxl⟩
  rcases mem_joinMatches hxl with ⟨c, hc, hw, k, hxe⟩
  exact ⟨l, hl, c, hc, hw, k,
    hxr.symm.trans (congrArg (dropColumn "index_right") hxe)⟩

theorem sjoin_within_nil (fires : List Row) : sjoin_within fires [] = [] := by
  induction fires with
  | nil => rfl
  | cons l fires ih => simp [sjoin_within, joinMatches, List.flatMap_cons, ih]

/-! ### Lemmas about the fire fetcher -/

theorem attachAll_ok {rows out : List Row} (h : attachAll rows = some out) :
    out.length = rows.length ∧
      ∀ i r, rows.get? i = some r →
        ∃ o, out.get? i = some o ∧ attachGeometry r = some o := by
  induction rows generalizing out with
  | nil =>
    simp only [attachAll, Option.some.injEq] at h
    subst h
    exact ⟨rfl, by intro i r hr; simp at hr⟩
  | cons r rs ih =>
    simp only [attachAll] at h
    cases hg : attachGeometry r with
    | none => rw [hg] at h; exact absurd h (by simp)
    | some r2 =>
      rw [hg] at h
      cases ha : attachAll rs with
      | none => rw [ha] at h; exact absurd h (by simp)
      | some rs2 =>
        rw [ha] at h
        simp only [Option.some.injEq] at h
        subst h
        rcases ih ha with ⟨hlen, hidx⟩
        refine ⟨by simp [hlen], ?_⟩
        intro i x hx
        cases i with
        | zero =>
          simp only [List.get?] at hx
          cases hx
          exact ⟨r2, rfl, hg⟩
        | succ i =>
          simp only [List.get?] at hx ⊢
          exact hidx i x hx

/-! ### A counting lemma for the join -/

theorem map_sum_eq_count_of_zero_one {fires : List Row} {wc : Row → Nat}
    (h : ∀ l ∈ fires, wc l = 1 ∨ wc l = 0) :
    (fires.map wc).sum = (fires.filter (fun l => wc l == 1)).length := by
  induction fires with
  | nil => rfl
  | cons l fires ih =>
    have hrest := ih fun x hx => h x (List.mem_cons_of_mem l hx)
    rcases h l (List.mem_cons_self l fires) with h1 | h0
    · simp [List.filter_cons, h1, hrest, Nat.add_comm]
    · simp [List.filter_cons, h0, hrest]

/-! ### Claim C1: membership and multiplicity of the within-join -/

/-- One fire point at (7, 5), strictly inside both of the overlapping test
polygons below. -/
def c1Fires : List Row := [mkFire 7 5]

/-- Two retained boundary rows whose polygons overlap on 5 < x < 10. -/
def c1Countries : List Row :=
  [mkCountry "Brazil" (sq 0 10 0 10), mkCountry "Peru" (sq 5 15 0 10)]

/-- Claim C1 is false as stated: a fire record whose point lies strictly
within two retained polygons appears twice in the Filtered Fire Dataset,
because the inner `sjoin` emits one row per matching (fire, country) pair and
nothing deduplicates.  Here one single fire record yields two output
records. -/
theorem C1_counterexample :
    c1Fires.length = 1 ∧
    pointWithin ⟨7, 5⟩ (sq 0 10 0 10) = true ∧
    pointWithin ⟨7, 5⟩ (sq 5 15 0 10) = true ∧
    (filter_fire_data c1Fires c1Countries).length = 2 := by
  decide

/-- Claim C1 (amended): a fire record contributes one record to the Filtered
Fire Dataset for every retained Country Boundary polygon whose interior
strictly contains its point — so it is present exactly when its point is
within at least one retained polygon, but it is duplicated, not kept at most
once, when its point lies within more than one. -/
theorem C1_join_multiplicity (fires ctrys : List Row) :
    (filter_fire_data fires ctrys).length
      = (fires.map (fun l => withinCount ctrys l)).sum ∧
    ∀ l, (filter_fire_data [l] ctrys).length = withinCount ctrys l := by
  refine ⟨filter_fire_data_length fires ctrys, ?_⟩
  intro l
  rw [filter_fire_data_length]
  simp

/-! ### Claim C3: the 100-point scenario -/

/-- Brazil in the C3 scenario: the square 0 < x < 50, 0 < y < 50. -/
def c3Brazil : Polygon := sq 0 50 0 50

/-- Peru in the C3 scenario: the square 60 < x < 80, 0 < y < 50. -/
def c3Peru : Polygon := sq 60 80 0 50

/-- Bolivia in the C3 scenario: the square 80 < x < 100, 0 < y < 50; it
shares the x = 80 edge with Peru. -/
def c3Bolivia : Polygon := sq 80 100 0 50

/-- The 100 scenario points: 40 strictly inside Brazil, 10 exactly on the
shared Peru/Bolivia edge x = 80, 50 outside all three squares. -/
def c3Points : List Point :=
  ((List.range 40).map (fun i => (⟨Int.ofNat i + 1, 1⟩ : Point)))
  ++ ((List.range 10).map (fun j => (⟨80, Int.ofNat j + 1⟩ : Point)))
  ++ ((List.range 50).map (fun j => (⟨200, Int.ofNat j + 1⟩ : Point)))

/-- The 100 scenario fire rows. -/
def c3Fires : List Row := c3Points.map (fun p => mkFire p.x p.y)

/-- The three retained boundary rows of the C3 scenario. -/
def c3Countries : List Row :=
  [mkCountry "Brazil" c3Brazil, mkCountry "Peru" c3Peru, mkCountry "Bolivia" c3Bolivia]

/-- Claim C3 is false as stated: on a concrete input of exactly the described
shape — 100 fire points, 40 strictly inside Brazil, 10 exactly on the shared
Peru/Bolivia border (they intersect both closed polygons but are within
neither interior), 50 outside all three — the Filtered Fire Dataset holds 40
records, not the claimed 50: the `within` predicate excludes the 10 border
points. -/
theorem C3_counterexample :
    c3Fires.length = 100 ∧
    (c3Points.filter (fun p => pointWithin p c3Brazil)).length = 40 ∧
    (c3Points.filter (fun p =>
        pointIntersects p c3Peru && pointIntersects p c3Bolivia
        && !pointWithin p c3Peru && !pointWithin p c3Bolivia)).length = 10 ∧
    (c3Points.filter (fun p =>
        !pointIntersects p c3Brazil && !pointIntersects p c3Peru
        && !pointIntersects p c3Bolivia)).length = 50 ∧
    (filter_fire_data c3Fires c3Countries).length = 40 ∧
    (filter_fire_data c3Fires c3Countries).length ≠ 50 := by
  decide

/-- Claim C3 (amended): in any input where exactly 40 fire records have their
point strictly within exactly one retained polygon and every other fire
record is within none (the 10 shared-border points and the 50 outside points
are within none, since `within` excludes the boundary), the Filtered Fire
Dataset contains exactly the 40 strictly-inside records; the border points
are excluded rather than counted once. -/
theorem C3_scenario_amended (fires ctrys : List Row)
    (hone : (fires.filter (fun l => withinCount ctrys l == 1)).length = 40)
    (hzero : ∀ l ∈ fires, withinCount ctrys l = 1 ∨ withinCount ctrys l = 0) :
    (filter_fire_data fires ctrys).length = 40 := by
  rw [filter_fire_data_length, map_sum_eq_count_of_zero_one hzero, hone]

/-- The amended C3 theorem evaluated on the concrete 100-point scenario. -/
theorem C3_scenario_amended_witness :
    (filter_fire_data c3Fires c3Countries).length = 40 :=
  C3_scenario_amended c3Fires c3Countries (by decide) (by decide)

/-! ### Claim C4: the retained boundary allow-list -/

/-- Claim C4: every boundary record retained by `fetch_country_boundaries`
has a `COUNTRY` value that is a string equal to exactly one of "Brazil",
"Peru" or "Bolivia" (case-sensitive); no other record reaches the retained
collection. -/
theorem C4_retained_allowlisted (st : Nat) (world out : List Row) (r : Row)
    (h : fetch_country_boundaries st world = Except.ok out) (hr : r ∈ out) :
    ∃ n, getCol r "COUNTRY" = some (Value.str n) ∧
      (n = "Brazil" ∨ n = "Peru" ∨ n = "Bolivia") := by
  unfold fetch_country_boundaries at h
  by_cases hst : 400 ≤ st ∧ st < 600
  · rw [if_pos hst] at h
    exact absurd h (by simp)
  · rw [if_neg hst] at h
    simp only [Except.ok.injEq] at h
    subst h
    have hk := (List.mem_filter.mp hr).2
    unfold keepCountry at hk
    cases hg : getCol r "COUNTRY" with
    | none => rw [hg] at hk; simp at hk
    | some v =>
      rw [hg] at hk
      cases v with
      | str n =>
        refine ⟨n, rfl, ?_⟩
        have hmem : n ∈ COUNTRIES_TO_KEEP := by
          simpa using hk
        simpa [COUNTRIES_TO_KEEP] using hmem
      | int i => simp at hk
      | pt p => simp at hk
      | poly g => simp at hk

/-- The C4 theorem evaluated on a concrete successful fetch retaining one
Brazil row. -/
theorem C4_witness :
    ∃ n, getCol (mkCountry "Brazil" (sq 0 1 0 1)) "COUNTRY"
          = some (Value.str n) ∧
      (n = "Brazil" ∨ n = "Peru" ∨ n = "Bolivia") :=
  C4_retained_allowlisted 200 [mkCountry "Brazil" (sq 0 1 0 1)]
    [mkCountry "Brazil" (sq 0 1 0 1)] (mkCountry "Brazil" (sq 0 1 0 1))
    (by rfl) (by simp)

/-! ### Claim C5: the attached fire geometry -/

/-- Claim C5: when the fire fetcher succeeds it returns one output row per
input row, and for every input row with numeric latitude and longitude the
corresponding output row is the input row with its `geometry` column set to
the point whose x coordinate is that row's longitude and whose y coordinate
is that row's latitude. -/
theorem C5_geometry_from_latlon (rows out : List Row)
    (h : fetch_fire_data rows = Except.ok out) :
    out.length = rows.length ∧
    ∀ i r lat lon, rows.get? i = some r →
      getCol r "latitude" = some (Value.int lat) →
      getCol r "longitude" = some (Value.int lon) →
      out.get? i = some (setCol r "geometry" (Value.pt ⟨lon, lat⟩)) ∧
      getCol (setCol r "geometry" (Value.pt ⟨lon, lat⟩)) "geometry"
        = some (Value.pt ⟨lon, lat⟩) := by
  unfold fetch_fire_data at h
  cases ha : attachAll rows with
  | none => rw [ha] at h; exact absurd h (by simp)
  | some out2 =>
    rw [ha] at h
    simp only [Except.ok.injEq] at h
    subst h
    rcases attachAll_ok ha with ⟨hlen, hidx⟩
    refine ⟨hlen, ?_⟩
    intro i r lat lon hri hlat hlon
    rcases hidx i r hri with ⟨o, ho, hg⟩
    unfold attachGeometry at hg
    rw [hlat, hlon] at hg
    simp only [Option.some.injEq] at hg
    subst hg
    exact ⟨ho, getCol_setCol_self r "geometry" (Value.pt ⟨lon, lat⟩)⟩

/-- One concrete fire row before the fetch. -/
def c5Row : Row := [("latitude", Value.int 2), ("longitude", Value.int 3)]

/-- The C5 theorem evaluated on the one-row concrete fetch: the attached
geometry is the point (3, 2), longitude first. -/
theorem C5_witness :
    [[("latitude", Value.int 2), ("longitude", Value.int 3),
      ("geometry", Value.pt ⟨3, 2⟩)]].get? 0
        = some (setCol c5Row "geometry" (Value.pt ⟨3, 2⟩)) ∧
    getCol (setCol c5Row "geometry" (Value.pt ⟨3, 2⟩)) "geometry"
      = some (Value.pt ⟨3, 2⟩) :=
  (C5_geometry_from_latlon [c5Row]
      [[("latitude", Value.int 2), ("longitude", Value.int 3),
        ("geometry", Value.pt ⟨3, 2⟩)]]
      (by rfl)).2 0 c5Row 2 3 (by rfl) (by rfl) (by rfl)

/-! ### Claim C6: non-success HTTP status on the boundary fetch -/

/-- Claim C6: on any HTTP status in 400..599 (500 included) the boundary
fetcher raises the fetch error from its explicit `raise_for_status` check,
and any run whose boundary request has such a status performs zero portal
mutations and leaves the portal untouched — the run aborts before any
publish attempt. -/
theorem C6_http_error_aborts (st : Nat) (h4 : 400 ≤ st) (h6 : st < 600)
    (inp : RunInput) (hst : inp.boundaryStatus = st) :
    (∀ world, fetch_country_boundaries st world
        = Except.error (PipelineError.fetchError st)) ∧
    (runMain inp).changes = [] ∧ (runMain inp).portal = inp.portal := by
  have hfb : ∀ world, fetch_country_boundaries st world
      = Except.error (PipelineError.fetchError st) := by
    intro world
    unfold fetch_country_boundaries
    rw [if_pos ⟨h4, h6⟩]
  refine ⟨hfb, ?_⟩
  cases hf : fetch_fire_data inp.fireRows with
  | error e => simp [runMain, hf]
  | ok fire => simp [runMain, hf, hst, hfb inp.worldRows]

/-- A concrete run whose boundary request returns HTTP 500. -/
def c6Input : RunInput :=
  { fireRows := [], boundaryStatus := 500, worldRows := [],
    portal := { items := [], nextId := 1 } }

/-- The C6 theorem evaluated at HTTP 500 on a concrete run. -/
theorem C6_witness :
    fetch_country_boundaries 500 []
        = Except.error (PipelineError.fetchError 500) ∧
    (runMain c6Input).changes = [] ∧ (runMain c6Input).portal = c6Input.portal :=
  ⟨(C6_http_error_aborts 500 (by decide) (by decide) c6Input rfl).1 [],
   (C6_http_error_aborts 500 (by decide) (by decide) c6Input rfl).2⟩

/-! ### Claim C7: zero allow-list matches -/

/-- Claim C7: when the boundary fetch succeeds but no row matches the
allow-list, the fetcher returns the empty collection rather than an error,
the spatial filter of any fire data against the empty collection is empty,
and the publish stage still performs its single mutation (publishing an
empty layer) instead of failing. -/
theorem C7_empty_allowlist_graceful (st : Nat) (world : List Row)
    (hstatus : ¬(400 ≤ st ∧ st < 600))
    (hmatch : ∀ r ∈ world, keepCountry r = false) :
    fetch_country_boundaries st world = Except.ok [] ∧
    (∀ fires, filter_fire_data fires [] = []) ∧
    (∀ portal, (publish_to_arcgis portal []).changes.length = 1) := by
  refine ⟨?_, ?_, ?_⟩
  · unfold fetch_country_boundaries
    rw [if_neg hstatus]
    congr 1
    exact List.filter_eq_nil_iff.mpr fun a ha => by simp [hmatch a ha]
  · intro fires
    rw [filter_fire_data, sjoin_within_nil]
    rfl
  · intro portal
    cases hs : content_search portal ITEM_TITLE "Feature Layer" with
    | nil => simp [publish_to_arcgis, hs]
    | cons it rest => simp [publish_to_arcgis, hs]

/-- A boundary dataset whose single row matches no allow-list entry. -/
def c7World : List Row := [mkCountry "France" (sq 0 1 0 1)]

/-- An empty concrete portal. -/
def c7Portal : Portal := { items := [], nextId := 1 }

/-- The C7 theorem evaluated on a concrete fetch retaining nothing, a
concrete fire row and a concrete portal. -/
theorem C7_witness :
    fetch_country_boundaries 200 c7World = Except.ok [] ∧
    filter_fire_data [mkFire 1 1] [] = [] ∧
    (publish_to_arcgis c7Portal []).changes.length = 1 :=
  ⟨(C7_empty_allowlist_graceful 200 c7World (by decide) (by decide)).1,
   (C7_empty_allowlist_graceful 200 c7World (by decide) (by decide)).2.1 [mkFire 1 1],
   (C7_empty_allowlist_graceful 200 c7World (by decide) (by decide)).2.2 c7Portal⟩

theorem dropColumn_append (m : String) (a b : Row) :
    dropColumn m (a ++ b) = dropColumn m a ++ dropColumn m b := by
  simp [dropColumn, List.filter_append]

theorem dropColumn_single_self (m : String) (v : Value) :
    dropColumn m [(m, v)] = [] := by
  simp [dropColumn]

/-! ### Claim C2: the publish state machine -/

/-- A portal item whose title is not the target title but contains every word
of it, so the full-text search returns it. -/
def c2OldItem : PortalItem :=
  { id := 7, title := "Filtered Fire Data - Brazil, Peru, Bolivia - backup",
    itemType := "Feature Layer", url := "u7", sharing := "org", data := [] }

/-- A portal holding only the near-miss item above. -/
def c2Portal : Portal := { items := [c2OldItem], nextId := 8 }

/-- The dataset being published in the C2 counterexample. -/
def c2Sdf : List Row := [mkFire 1 1]

/-- Claim C2 is false as stated: on a portal with no item whose title exactly
matches the target title, the publisher does not create a new layer with the
target title — the full-text search returns the near-miss item and the
publisher overwrites it, so after the run no item with the target title
exists at all. -/
theorem C2_counterexample :
    (∀ it ∈ c2Portal.items, it.title ≠ ITEM_TITLE) ∧
    (publish_to_arcgis c2Portal c2Sdf).changes = [PortalChange.overwriteData 7] ∧
    (∀ it ∈ (publish_to_arcgis c2Portal c2Sdf).portal.items, it.title ≠ ITEM_TITLE) := by
  decide

/-- Claim C2 (amended): the publisher submits the target title as a full-text
search query for feature-layer items; when the search returns any item — its
title need not exactly equal the target title — the first result's data is
overwritten in place, all its other fields (id, title, url, sharing) kept;
only when the search returns nothing is a new hosted feature layer with the
target title created; and every successful run performs exactly one portal
mutation. -/
theorem C2_publish_state_machine (gis : Portal) (sdf : List Row) :
    (publish_to_arcgis gis sdf).changes.length = 1 ∧
    (publish_to_arcgis gis sdf).portal.items =
      (match content_search gis ITEM_TITLE "Feature Layer" with
       | item :: _ =>
         gis.items.map (fun it =>
           if it.id == item.id then { it with data := sdf } else it)
       | [] =>
         gis.items ++
           [{ id := gis.nextId, title := ITEM_TITLE, itemType := "Feature Layer",
              url := "", sharing := "private", data := sdf }]) := by
  cases hs : content_search gis ITEM_TITLE "Feature Layer" with
  | nil => simp [publish_to_arcgis, hs]
  | cons it rest => simp [publish_to_arcgis, hs]

/-! ### Claim C8: no join-index artifact, original columns kept -/

/-- Claim C8: every record of the Filtered Fire Dataset has no `index_right`
column, and it consists of its source fire record's columns (unchanged,
whenever the fire record carried no column literally named `index_right`,
which no fire-feed column is) followed by the joined columns. -/
theorem C8_no_join_index (fires ctrys : List Row) (r : Row)
    (hr : r ∈ filter_fire_data fires ctrys) :
    getCol r "index_right" = none ∧
    ∃ l, l ∈ fires ∧ ∃ rest, r = dropColumn "index_right" l ++ rest ∧
      ((∀ c ∈ l, (c.1 == "index_right") = false) → r = l ++ rest) := by
  rcases mem_filter_fire_data hr with ⟨l, hl, c, hc, hw, k, hre⟩
  have hsplit : r = dropColumn "index_right" l
      ++ dropColumn "index_right" (countryAttributes c) := by
    rw [hre, dropColumn_append, dropColumn_append, dropColumn_single_self]
    simp
  constructor
  · rw [hre]
    exact getCol_dropColumn_self _ _
  · refine ⟨l, hl, dropColumn "index_right" (countryAttributes c), hsplit, ?_⟩
    intro hnone
    exact hsplit.trans (by rw [dropColumn_eq_self hnone])

/-- One concrete fire row for the C8 witness. -/
def c8Fires : List Row := [mkFire 2 2]

/-- One concrete retained country for the C8 witness. -/
def c8Ctrys : List Row := [mkCountry "Peru" (sq 0 4 0 4)]

/-- The single output record of the C8 witness join. -/
def c8Row : Row := mkFire 2 2 ++ [("COUNTRY", Value.str "Peru")]

/-- The C8 theorem evaluated on a concrete one-record join. -/
theorem C8_witness :
    getCol c8Row "index_right" = none ∧
    ∃ l, l ∈ c8Fires ∧ ∃ rest, c8Row = dropColumn "index_right" l ++ rest ∧
      ((∀ c ∈ l, (c.1 == "index_right") = false) → c8Row = l ++ rest) :=
  C8_no_join_index c8Fires c8Ctrys c8Row (by decide)

/-! ### Claim C9: the top-level error handler -/

/-- Claim C9: every run writes nothing to standard error and exits with code
0; when a stage raises an error, that error propagates uncaught to the single
top-level handler, the run's final printed line is the error description on
standard output, and no portal mutation happens — nothing catches and retries
the failing stage. -/
theorem C9_top_level_handler (inp : RunInput) :
    (runMain inp).stderr = [] ∧ (runMain inp).exitCode = 0 ∧
    ∀ e, runError inp = some e →
      (runMain inp).stdout.getLast? = some ("Error: " ++ errMsg e) ∧
      (runMain inp).changes = [] := by
  cases hf : fetch_fire_data inp.fireRows with
  | error e0 =>
    refine ⟨by simp [runMain, hf], by simp [runMain, hf], ?_⟩
    intro e he
    simp only [runError, hf, Option.some.injEq] at he
    subst he
    exact ⟨by simp [runMain, hf, List.getLast?_cons_cons, List.getLast?_singleton],
      by simp [runMain, hf]⟩
  | ok fire =>
    cases hb : fetch_country_boundaries inp.boundaryStatus inp.worldRows with
    | error e0 =>
      refine ⟨by simp [runMain, hf, hb], by simp [runMain, hf, hb], ?_⟩
      intro e he
      simp only [runError, hf, hb, Option.some.injEq] at he
      subst he
      exact ⟨by simp [runMain, hf, hb, List.getLast?_cons_cons, List.getLast?_singleton],
        by simp [runMain, hf, hb]⟩
    | ok ctrys =>
      refine ⟨by simp [runMain, hf, hb], by simp [runMain, hf, hb], ?_⟩
      intro e he
      simp [runError, hf, hb] at he

/-- A concrete run whose boundary request returns HTTP 404. -/
def c9Input : RunInput :=
  { fireRows := [], boundaryStatus := 404, worldRows := [],
    portal := { items := [], nextId := 1 } }

/-- The C9 theorem evaluated on a concrete failing run. -/
theorem C9_witness :
    (runMain c9Input).stderr = [] ∧ (runMain c9Input).exitCode = 0 ∧
    ((runMain c9Input).stdout.getLast?
        = some ("Error: " ++ errMsg (PipelineError.fetchError 404)) ∧
      (runMain c9Input).changes = []) :=
  ⟨(C9_top_level_handler c9Input).1, (C9_top_level_handler c9Input).2.1,
   (C9_top_level_handler c9Input).2.2 (PipelineError.fetchError 404) (by rfl)⟩

/-! ### Claim C10: boundary attributes reach the output -/

/-- Claim C10: every record of the Filtered Fire Dataset is its source fire
record (minus any `index_right` column, which fire feeds do not have)
followed by all non-geometry attribute columns of the country boundary row it
was joined to, minus only the join index; in particular when the fire record
has no `COUNTRY` column of its own, the output record's `COUNTRY` value is
the matched boundary row's `COUNTRY` value. -/
theorem C10_country_attrs (fires ctrys : List Row) (r : Row)
    (hr : r ∈ filter_fire_data fires ctrys) :
    ∃ l, l ∈ fires ∧ ∃ c, c ∈ ctrys ∧ rowWithin l c = true ∧
      r = dropColumn "index_right" l
          ++ dropColumn "index_right" (countryAttributes c) ∧
      (getCol l "COUNTRY" = none →
        getCol r "COUNTRY" = getCol c "COUNTRY") := by
  rcases mem_filter_fire_data hr with ⟨l, hl, c, hc, hw, k, hre⟩
  have hsplit : r = dropColumn "index_right" l
      ++ dropColumn "index_right" (countryAttributes c) := by
    rw [hre, dropColumn_append, dropColumn_append, dropColumn_single_self]
    simp
  refine ⟨l, hl, c, hc, hw, hsplit, ?_⟩
  intro hnone
  have h1 : getCol (dropColumn "index_right" l) "COUNTRY" = none := by
    rw [getCol_dropColumn_ne l (by decide), hnone]
  rw [hsplit, getCol_append_of_none _ h1,
    getCol_dropColumn_ne _ (by decide), countryAttributes,
    getCol_dropColumn_ne _ (by decide)]

/-- One concrete fire row for the C10 witness. -/
def c10Fires : List Row := [mkFire 3 3]

/-- One concrete retained country for the C10 witness. -/
def c10Ctrys : List Row := [mkCountry "Bolivia" (sq 0 5 0 5)]

/-- The single output record of the C10 witness join. -/
def c10Row : Row := mkFire 3 3 ++ [("COUNTRY", Value.str "Bolivia")]

/-- The C10 theorem evaluated on a concrete one-record join. -/
theorem C10_witness :
    ∃ l, l ∈ c10Fires ∧ ∃ c, c ∈ c10Ctrys ∧ rowWithin l c = true ∧
      c10Row = dropColumn "index_right" l
          ++ dropColumn "index_right" (countryAttributes c) ∧
      (getCol l "COUNTRY" = none →
        getCol c10Row "COUNTRY" = getCol c "COUNTRY") :=
  C10_country_attrs c10Fires c10Ctrys c10Row (by decide)

end FirePipeline
